import Mathlib

/-!
Verification of the ABI type model of `src/src/types.rs`
(`rust-ethereum-abi`): the `Type` enum, its `is_dynamic` classification,
its `Display` (canonical rendering) implementation, its derived structural
equality, and the descriptor parser feeding it.
-/

namespace EthereumAbi

/-- Embedding of the Rust enum `Type` from `src/src/types.rs` (lines 5-27).
Named `AbiType` because `Type` is a sort in Lean; constructor names and
payloads follow the source: `Tuple` carries the ordered `(name, type)`
field list, `FixedArray` carries element type and length. -/
inductive AbiType where
  | Uint (size : Nat)
  | Int (size : Nat)
  | Address
  | Bool
  | FixedBytes (size : Nat)
  | FixedArray (ty : AbiType) (size : Nat)
  | String
  | Bytes
  | Array (ty : AbiType)
  | Tuple (fields : List (String × AbiType))
  deriving Repr

/-- Embedding of `Type::is_dynamic` (`src/src/types.rs` lines 49-62);
`attach` is termination bookkeeping for the recursion through the tuple
field list. -/
def is_dynamic : AbiType → Bool
  | .Uint _ => false
  | .Int _ => false
  | .Address => false
  | .Bool => false
  | .FixedBytes _ => false
  | .FixedArray ty _ => is_dynamic ty
  | .String => true
  | .Bytes => true
  | .Array _ => true
  | .Tuple tys => tys.attach.any (fun p => is_dynamic p.1.2)
termination_by t => sizeOf t
decreasing_by
  all_goals first
  | (simp <;> omega)
  | (obtain ⟨⟨n, t⟩, hmem⟩ := p
     have h := List.sizeOf_lt_of_mem hmem
     simp at h ⊢
     omega)

/-- Embedding of `impl std::fmt::Display for Type` (`src/src/types.rs`
lines 65-87), the canonical rendering. The `"----"` prefix written before
fixed-array and array renderings is taken verbatim from the source
(`write!(f, "----{}[{}]", ty, size)` and `write!(f, "----{}[]", ty)`);
`attach` is termination bookkeeping for the recursion through the tuple
field list. -/
def render : AbiType → String
  | .Uint size => "uint" ++ toString size
  | .Int size => "int" ++ toString size
  | .Address => "address"
  | .Bool => "bool"
  | .String => "string"
  | .FixedBytes size => "bytes" ++ toString size
  | .Bytes => "bytes"
  | .FixedArray ty size => "----" ++ render ty ++ "[" ++ toString size ++ "]"
  | .Array ty => "----" ++ render ty ++ "[]"
  | .Tuple tys => "(" ++ String.intercalate "," (tys.attach.map (fun p => render p.1.2)) ++ ")"
termination_by t => sizeOf t
decreasing_by
  all_goals first
  | (simp <;> omega)
  | (obtain ⟨⟨n, t⟩, hmem⟩ := p
     have h := List.sizeOf_lt_of_mem hmem
     simp at h ⊢
     omega)

/-- The tuple case of `is_dynamic` is the plain `any` over the fields, as
in the source (`tys.iter().any(|(_, ty)| ty.is_dynamic())`). -/
theorem is_dynamic_Tuple (tys : List (String × AbiType)) :
    is_dynamic (.Tuple tys) = tys.any (fun p => is_dynamic p.2) := by
  rw [is_dynamic, Bool.eq_iff_iff]
  simp only [List.any_eq_true]
  constructor
  · rintro ⟨⟨a, ha⟩, _, hf⟩
    exact ⟨a, ha, hf⟩
  · rintro ⟨a, ha, hf⟩
    exact ⟨⟨a, ha⟩, List.mem_attach _ _, hf⟩

/-- The tuple case of `render` joins the plain `map` of the fields' type
renderings, as in the source
(`tys.iter().map(|(_, ty)| format!("{}", ty)).collect().join(",")`). -/
theorem render_Tuple (tys : List (String × AbiType)) :
    render (.Tuple tys) =
      "(" ++ String.intercalate "," (tys.map (fun p => render p.2)) ++ ")" := by
  have h := List.attach_map_coe tys (fun p => render p.2)
  simp only [render]
  rw [← h]

mutual
/-- Embedding of the derived `PartialEq`/`Eq` on `Type`
(`#[derive(..., PartialEq, Eq)]`, `src/src/types.rs` line 5): structural
comparison of variant tags and all payloads, tuple field lists compared
pairwise with `fieldsEq`. -/
def typeEq : AbiType → AbiType → Bool
  | .Uint a, .Uint b => a == b
  | .Int a, .Int b => a == b
  | .Address, .Address => true
  | .Bool, .Bool => true
  | .FixedBytes a, .FixedBytes b => a == b
  | .FixedArray t a, .FixedArray u b => typeEq t u && a == b
  | .String, .String => true
  | .Bytes, .Bytes => true
  | .Array t, .Array u => typeEq t u
  | .Tuple fs, .Tuple gs => fieldsEq fs gs
  | _, _ => false

/-- Pairwise comparison of tuple field lists under the derived
`PartialEq`: the derive on `Vec<(String, Type)>` compares lengths and, at
each position, both the field name and the field type. -/
def fieldsEq : List (String × AbiType) → List (String × AbiType) → Bool
  | [], [] => true
  | (n, t) :: fs, (m, u) :: gs => n == m && typeEq t u && fieldsEq fs gs
  | [], _ :: _ => false
  | _ :: _, [] => false
end

mutual
/-- `typeEq` decides propositional equality of the embedded trees. -/
theorem typeEq_eq_true_iff : (a b : AbiType) → (typeEq a b = true ↔ a = b)
  | .Uint n, b => by cases b <;> simp [typeEq]
  | .Int n, b => by cases b <;> simp [typeEq]
  | .Address, b => by cases b <;> simp [typeEq]
  | .Bool, b => by cases b <;> simp [typeEq]
  | .FixedBytes n, b => by cases b <;> simp [typeEq]
  | .FixedArray t n, b => by
      cases b <;> simp [typeEq]
      rename_i u m
      simp [typeEq_eq_true_iff t u]
  | .String, b => by cases b <;> simp [typeEq]
  | .Bytes, b => by cases b <;> simp [typeEq]
  | .Array t, b => by
      cases b <;> simp [typeEq]
      rename_i u
      exact typeEq_eq_true_iff t u
  | .Tuple fs, b => by
      cases b <;> simp [typeEq]
      rename_i gs
      exact fieldsEq_eq_true_iff fs gs

/-- `fieldsEq` decides propositional equality of field lists. -/
theorem fieldsEq_eq_true_iff :
    (fs gs : List (String × AbiType)) → (fieldsEq fs gs = true ↔ fs = gs)
  | [], [] => by simp [fieldsEq]
  | [], _ :: _ => by simp [fieldsEq]
  | _ :: _, [] => by simp [fieldsEq]
  | (n, t) :: fs, (m, u) :: gs => by
      simp [fieldsEq, typeEq_eq_true_iff t u, fieldsEq_eq_true_iff fs gs,
        Prod.ext_iff, and_assoc]
end

instance : DecidableEq AbiType := fun a b =>
  decidable_of_iff _ (typeEq_eq_true_iff a b)

/-- Modelled from the spec: the error taxonomy of spec section 7 for the
type-string parser, whose implementation (`parse_exact_type`, referenced
by the `Deserialize` impl at `src/src/types.rs` lines 29-45) is not under
`src/`. -/
inductive ParseError where
  | UnknownBaseType
  | InvalidWidth
  | MissingComponents
  | UnexpectedComponents
  | MalformedArraySuffix
  | TrailingInput
  | NestedFailure (field : String) (inner : ParseError)
  deriving Repr, DecidableEq

/-- Modelled from the spec: the `ParamEntry` descriptor shape of spec
sections 3 and 6 (name, type string, optional ordered components list,
optional indexed flag), consumed by the `Deserialize` impl
(`src/src/types.rs` line 34); its declaration is not under `src/`. -/
inductive ParamEntry where
  | mk (name : String) (type_ : String)
      (components : Option (List ParamEntry)) (indexed : Option Bool)
  deriving Repr

/-- Strips an exact keyword from the front of a character list, returning
the remainder on success. -/
def stripKw : List Char → List Char → Option (List Char)
  | [], s => some s
  | _ :: _, [] => none
  | k :: ks, c :: cs => if k = c then stripKw ks cs else none

/-- Longest run of decimal digits at the front, with the remainder. -/
def takeDigits : List Char → List Char × List Char
  | [] => ([], [])
  | c :: cs =>
    if c.isDigit then
      let (ds, rest) := takeDigits cs
      (c :: ds, rest)
    else ([], c :: cs)

/-- Decimal value of a digit run. -/
def digitsVal (ds : List Char) : Nat :=
  ds.foldl (fun acc c => acc * 10 + (c.toNat - 48)) 0

/-- The base type recognized at the front of a type string: either a fully
resolved scalar (including `bytes` and `string`) or the `tuple` keyword,
which still needs its components resolved. -/
inductive BaseTok where
  | scalar (t : AbiType)
  | tupleKw
  deriving Repr

/-- Modelled from the spec: base-type recognition of spec section 4.2 —
longest-match on the keyword, then its numeric parameter: `uint`/`int`
demand a width in {8,16,...,256}, `bytes` takes an optional width in
1..=32, and `tuple` is flagged for component resolution.  Returns the
recognized base and the unconsumed remainder; an unrecognized keyword is
`UnknownBaseType`, an illegal width `InvalidWidth`. -/
def parseBase (s : List Char) : Except ParseError (BaseTok × List Char) :=
  match stripKw "address".data s with
  | some r => .ok (.scalar .Address, r)
  | none =>
  match stripKw "bool".data s with
  | some r => .ok (.scalar .Bool, r)
  | none =>
  match stripKw "string".data s with
  | some r => .ok (.scalar .String, r)
  | none =>
  match stripKw "bytes".data s with
  | some r =>
    let (ds, rest) := takeDigits r
    if ds.isEmpty then .ok (.scalar .Bytes, rest)
    else if 1 ≤ digitsVal ds ∧ digitsVal ds ≤ 32 then
      .ok (.scalar (.FixedBytes (digitsVal ds)), rest)
    else .error .InvalidWidth
  | none =>
  match stripKw "uint".data s with
  | some r =>
    let (ds, rest) := takeDigits r
    if ds.isEmpty then .error .InvalidWidth
    else if digitsVal ds % 8 = 0 ∧ 0 < digitsVal ds ∧ digitsVal ds ≤ 256 then
      .ok (.scalar (.Uint (digitsVal ds)), rest)
    else .error .InvalidWidth
  | none =>
  match stripKw "int".data s with
  | some r =>
    let (ds, rest) := takeDigits r
    if ds.isEmpty then .error .InvalidWidth
    else if digitsVal ds % 8 = 0 ∧ 0 < digitsVal ds ∧ digitsVal ds ≤ 256 then
      .ok (.scalar (.Int (digitsVal ds)), rest)
    else .error .InvalidWidth
  | none =>
  match stripKw "tuple".data s with
  | some r => .ok (.tupleKw, r)
  | none => .error .UnknownBaseType

mutual
/-- Modelled from the spec: array-suffix peeling of spec section 4.2 —
after the base type, repeatedly consume trailing `[]` or `[N]` groups
left-to-right, so the suffix closest to the base wraps it first (innermost
dimension).  Bracket violations and zero lengths are
`MalformedArraySuffix`; any other trailing character is `TrailingInput`. -/
def parseSuffixes : AbiType → List Char → Except ParseError AbiType
  | t, [] => .ok t
  | t, '[' :: ']' :: rest => parseSuffixes (.Array t) rest
  | t, '[' :: c :: rest =>
    if c.isDigit then parseFixedLen t (c.toNat - 48) rest
    else .error .MalformedArraySuffix
  | _, ['['] => .error .MalformedArraySuffix
  | _, _ :: _ => .error .TrailingInput

/-- Modelled from the spec: the digits of a fixed-length array suffix,
accumulated until the closing bracket; a zero length is rejected (spec
sections 4.2 and 7). -/
def parseFixedLen : AbiType → Nat → List Char → Except ParseError AbiType
  | _, _, [] => .error .MalformedArraySuffix
  | t, n, ']' :: rest =>
    if n = 0 then .error .MalformedArraySuffix
    else parseSuffixes (.FixedArray t n) rest
  | t, n, c :: rest =>
    if c.isDigit then parseFixedLen t (n * 10 + (c.toNat - 48)) rest
    else .error .MalformedArraySuffix
end

mutual
/-- Modelled from the spec: `parse_exact_type` (called by the
`Deserialize` impl at `src/src/types.rs` line 36, definition absent from
`src/`): recognize the base type, pair it with the optional components
list — mandatory for `tuple` (`MissingComponents` otherwise), forbidden
for every other base (`UnexpectedComponents`) — then peel the array
suffixes (spec section 4.2). -/
def parse_exact_type (components : Option (List ParamEntry)) (s : String) :
    Except ParseError AbiType :=
  match parseBase s.data with
  | .error e => .error e
  | .ok (.scalar t, rest) =>
    match components with
    | none => parseSuffixes t rest
    | some _ => .error .UnexpectedComponents
  | .ok (.tupleKw, rest) =>
    match components with
    | none => .error .MissingComponents
    | some es =>
      match parseComponents es with
      | .error e => .error e
      | .ok fields => parseSuffixes (.Tuple fields) rest

/-- Modelled from the spec: the Component Resolver of spec section 4.3 —
parse each nested descriptor in declaration order, wrapping a failing
component's error in `NestedFailure` with the field name (spec section
7). -/
def parseComponents : List ParamEntry → Except ParseError (List (String × AbiType))
  | [] => .ok []
  | .mk name type_ comps _ :: es =>
    match parse_exact_type comps type_ with
    | .error e => .error (.NestedFailure name e)
    | .ok t =>
      match parseComponents es with
      | .error e => .error e
      | .ok rest => .ok ((name, t) :: rest)
end

/-- Claim C1: `is_dynamic` returns false for `Uint`, `Int`, `Address`,
`Bool` and `FixedBytes`; true for `Array`, `Bytes` and `String`
unconditionally; the element type's result for `FixedArray`; and for
`Tuple` true iff at least one field's type is dynamic. -/
theorem is_dynamic_characterization :
    (∀ n, is_dynamic (.Uint n) = false) ∧
    (∀ n, is_dynamic (.Int n) = false) ∧
    is_dynamic .Address = false ∧
    is_dynamic .Bool = false ∧
    (∀ n, is_dynamic (.FixedBytes n) = false) ∧
    (∀ t, is_dynamic (.Array t) = true) ∧
    is_dynamic .Bytes = true ∧
    is_dynamic .String = true ∧
    (∀ t n, is_dynamic (.FixedArray t n) = is_dynamic t) ∧
    (∀ fs, is_dynamic (.Tuple fs) = true ↔ ∃ p ∈ fs, is_dynamic p.2 = true) := by
  refine ⟨?_, ?_, ?_, ?_, ?_, ?_, ?_, ?_, ?_, ?_⟩
  all_goals intros
  all_goals first
  | (rw [is_dynamic_Tuple]; simp [List.any_eq_true])
  | rw [is_dynamic]

/-- Claim C2 (code bug witness): the `Display` impl writes a literal
`"----"` before every array and fixed-array rendering, so `Array(Uint(8))`
renders as `"----uint8[]"` rather than the canonical `"uint8[]"` (scalar
renderings are unaffected). -/
theorem render_array_divergence :
    render (.Array (.Uint 8)) = "----uint8[]" ∧
    render (.FixedArray (.Uint 8) 2) = "----uint8[2]" ∧
    render (.Uint 256) = "uint256" ∧
    render (.FixedBytes 32) = "bytes32" ∧
    render (.Array (.Uint 8)) ≠ "uint8[]" := by
  refine ⟨?_, ?_, ?_, ?_, ?_⟩
  all_goals simp only [render] <;> decide

/-- Claim C3: a tuple renders as an open parenthesis, the renderings of
the fields' types in declaration order joined by commas, and a close
parenthesis; the output is invariant under renaming the fields, so field
names never appear. -/
theorem render_tuple_fields (fs : List (String × AbiType)) :
    render (.Tuple fs) =
      "(" ++ String.intercalate "," (fs.map (fun p => render p.2)) ++ ")" ∧
    ∀ g : String → String,
      render (.Tuple (fs.map (fun p => (g p.1, p.2)))) = render (.Tuple fs) := by
  refine ⟨render_Tuple fs, fun g => ?_⟩
  rw [render_Tuple, render_Tuple, List.map_map]
  rfl

/-- Claim C4 (code bug witness): the round-trip law fails on the code —
because of the `"----"` prefix the `Display` impl emits, the rendering of
`Array(Uint(8))` is `"----uint8[]"`, which the grammar rejects with
`UnknownBaseType` instead of parsing back to the tree. -/
theorem roundtrip_fails_on_array :
    render (.Array (.Uint 8)) = "----uint8[]" ∧
    parse_exact_type none (render (.Array (.Uint 8))) =
      .error .UnknownBaseType := by
  constructor
  · simp only [render]; rfl
  · rw [show render (.Array (.Uint 8)) = "----uint8[]" by simp only [render]; rfl]
    simp only [parse_exact_type]; rfl

/-- Claim C5 counterexample: under the derived `PartialEq`, two tuples
differing only in field names do NOT compare equal — the derive on
`Vec<(String, Type)>` compares the names too. -/
theorem tuple_field_names_break_equality :
    typeEq (.Tuple [("a", .Uint 8)]) (.Tuple [("b", .Uint 8)]) = false ∧
    AbiType.Tuple [("a", .Uint 8)] ≠ .Tuple [("b", .Uint 8)] := by
  constructor
  · simp [typeEq, fieldsEq]
  · intro h
    have := (typeEq_eq_true_iff _ _).mpr h
    simp [typeEq, fieldsEq] at this

/-- Claim C5 amended: equality of `Type` trees is full structural
equality — variant tags, all recursive parameters, tuple field order AND
tuple field names; names are part of type identity under the derived
`PartialEq`. -/
theorem typeEq_iff_structural_equality (a b : AbiType) :
    typeEq a b = true ↔ a = b :=
  typeEq_eq_true_iff a b

/-- Claim C6: parsing `"uint8[2][3]"` with no components yields
`FixedArray(FixedArray(Uint(8),2),3)` — the suffix closest to the base
wraps first, the last-written suffix is the outermost dimension. -/
theorem parse_nesting_order :
    parse_exact_type none "uint8[2][3]" =
      .ok (.FixedArray (.FixedArray (.Uint 8) 2) 3) := by
  simp only [parse_exact_type]; rfl

/-- Claim C7: parsing `"uint7"` fails with `InvalidWidth` (no tree is
returned), while parsing `"uint256"` succeeds with `Uint(256)`. -/
theorem parse_width_validation :
    parse_exact_type none "uint7" = .error .InvalidWidth ∧
    parse_exact_type none "uint256" = .ok (.Uint 256) := by
  constructor <;> (simp only [parse_exact_type]; rfl)

/-- Claim C8: parsing `"tuple"` with no components list fails with
`MissingComponents`, and parsing `"uint256"` with a non-empty components
list fails with `UnexpectedComponents`. -/
theorem parse_components_pairing :
    parse_exact_type none "tuple" = .error .MissingComponents ∧
    parse_exact_type (some [.mk "x" "uint256" none none]) "uint256" =
      .error .UnexpectedComponents := by
  constructor <;> (simp only [parse_exact_type]; rfl)

/-- Claim C9: the empty tuple is static and renders as exactly `"()"`. -/
theorem empty_tuple_static_renders_unit :
    is_dynamic (.Tuple []) = false ∧ render (.Tuple []) = "()" := by
  constructor
  · rw [is_dynamic_Tuple]; rfl
  · rw [render_Tuple]; rfl

/-- Claim C10: for every element type and every length, including zero,
`is_dynamic` of a fixed array equals `is_dynamic` of its element type —
the length never influences dynamic-ness. -/
theorem fixed_array_dynamic_ignores_length (e : AbiType) (n : Nat) :
    is_dynamic (.FixedArray e n) = is_dynamic e := by
  rw [is_dynamic]

end EthereumAbi
